import Mathlib

/-!
Verification of the WEkEO HDA API helper functions
(`hda_api_functions.ipynb`) against their natural-language specification.

The Python functions are shallowly embedded: HTTP transports become
explicit functions from a request counter (or a request key) to a
response value, byte strings become `List Nat` (each entry < 256),
floating-point elapsed times become rationals, mutable loop state
becomes explicit accumulator passing, unbounded `while` loops become
fuel-indexed recursion (`none` = the loop is still running after the
given number of iterations), and Python exceptions become explicit
error values.
-/

namespace Hda

/-! ## Status polling (`get_request_status`, `get_order_status`)

Source:

    def get_request_status(hda_dict):
        status = "not started"
        while (status != "completed"):
            response = requests.get(... '/datarequest/status/' ...)
            if (response.status_code == hda_dict['CONST_HTTP_SUCCESS_CODE']):
                status = json.loads(response.text)['status']
            else:
                print("Error: ...")

    def get_order_status(hda_dict, order_id):
        status = "not started"
        while (status != "completed"):
            response = requests.get(... '/dataorder/status/' ...)
            if (response.status_code == hda_dict['CONST_HTTP_SUCCESS_CODE']):
                status = json.loads(response.text)['status']
            else:
                print("Error: ...")
        return response

The transport is a function from the index of the request (0-based) to
the response received.  The loop is run on fuel: `some n` means the loop
exited after issuing `n` HTTP requests, `none` means it was still
running when the fuel ran out. -/

/-- An HTTP response to a status poll: status code plus the parsed
`status` JSON field. -/
structure StatusResponse where
  status_code : Nat
  status : String
  deriving DecidableEq, Repr

/-- One fuel-indexed unfolding of the `while (status != "completed")`
loop of `get_request_status`.  Arguments: remaining fuel, current value
of the `status` variable, number of requests issued so far.  Returns the
number of requests issued when the loop exits. -/
def pollLoop (transport : Nat → StatusResponse) : Nat → String → Nat → Option Nat
  | 0, _, _ => none
  | fuel + 1, st, n =>
    if st = "completed" then some n
    else
      let r := transport n
      let st' := if r.status_code = 200 then r.status else st
      pollLoop transport fuel st' (n + 1)

/-- `get_request_status`: poll the job status starting from
`status = "not started"`; result is the number of requests issued. -/
def get_request_status (transport : Nat → StatusResponse) (fuel : Nat) : Option Nat :=
  pollLoop transport fuel "not started" 0

/-- One fuel-indexed unfolding of the `while` loop of
`get_order_status`, which additionally keeps the last response received
(the Python `response` variable, returned after the loop). -/
def orderPollLoop (transport : Nat → StatusResponse) :
    Nat → String → Nat → Option StatusResponse → Option (Nat × Option StatusResponse)
  | 0, _, _, _ => none
  | fuel + 1, st, n, last =>
    if st = "completed" then some (n, last)
    else
      let r := transport n
      let st' := if r.status_code = 200 then r.status else st
      orderPollLoop transport fuel st' (n + 1) (some r)

/-- `get_order_status`: poll the order status starting from
`status = "not started"`; result is the number of requests issued and
the final `response` value. -/
def get_order_status (transport : Nat → StatusResponse) (fuel : Nat) :
    Option (Nat × Option StatusResponse) :=
  orderPollLoop transport fuel "not started" 0 none

/-- A transport whose status endpoint answers every request with HTTP
200 and the terminal status string "failed". -/
def failedTransport : Nat → StatusResponse := fun _ => ⟨200, "failed"⟩

/-- A transport whose status endpoint answers every request with HTTP
200 and status "completed". -/
def completedTransport : Nat → StatusResponse := fun _ => ⟨200, "completed"⟩

/-- `get_request_status` terminates on some amount of fuel. -/
def RequestPollTerminates (transport : Nat → StatusResponse) : Prop :=
  ∃ fuel n, get_request_status transport fuel = some n

/-- `get_order_status` terminates on some amount of fuel. -/
def OrderPollTerminates (transport : Nat → StatusResponse) : Prop :=
  ∃ fuel r, get_order_status transport fuel = some r

/-! ## Order creation and batch download (`get_order_ids`, `get_filenames`, `download_data`)

Source:

    def get_order_ids(hda_dict):
        i = 0
        order_ids = []
        order_sizes = []
        for result in hda_dict['results']['content']:
            data = { "jobId": hda_dict['job_id'], "uri": result['url'] }
            order_sizes.append(result['size'])
            response = requests.post(... '/dataorder', json=data, ...)
            if (response.status_code == hda_dict['CONST_HTTP_SUCCESS_CODE']):
                order_ids.append(json.loads(response.text)['orderId'])
                response = get_order_status(hda_dict, order_ids[i])
            else:
                print("Error: ...")
            i += 1
        hda_dict['order_ids'] = order_ids
        hda_dict['order_sizes'] = order_sizes
        ...

    def get_filenames(hda_dict):
        fileName = []
        for file in hda_dict['results']['content']:
            fileName.append(file['filename'])
        return fileName

    def download_data(hda_dict):
        fileName = get_filenames(hda_dict)
        i = 0
        for order_id in hda_dict['order_ids']:
            file_name = fileName[i]
            download_url = hda_dict['broker_endpoint'] + '/dataorder/download/' + order_id
            product_size = hda_dict['order_sizes'][i]
            time_elapsed = downloadFile(download_url, ..., file_name, product_size)
            ...
            i += 1
-/

/-- One entry of `hda_dict['results']['content']`: the fields the code
reads. -/
structure ResultDescriptor where
  filename : String
  size : Nat
  url : String
  deriving DecidableEq, Repr

/-- Response to an order POST: status code plus the parsed `orderId`
field. -/
structure OrderResponse where
  status_code : Nat
  orderId : String
  deriving DecidableEq, Repr

/-- The state `get_order_ids` accumulates: the uris POSTed to
`/dataorder` (one per loop iteration), and the `order_ids` and
`order_sizes` lists stored into `hda_dict`. -/
structure HdaOrders where
  posted : List String
  order_ids : List String
  order_sizes : List Nat
  deriving DecidableEq, Repr

/-- Possible outcomes of the `get_order_ids` loop: a normal return; an
uncaught `IndexError` from the source's `order_ids[i]` lookup (the
counter `i` is incremented on every iteration while `order_ids` only
grows on a 200 response, so a successful POST that follows any failed
one reads past the end of `order_ids`); or a status poll still looping
when its fuel ran out. -/
inductive OrderOutcome where
  | returns (o : HdaOrders)
  | indexError
  | pollHang
  deriving DecidableEq, Repr

/-- The loop of `get_order_ids`.  `orderPost` maps a result uri to the
`/dataorder` POST response; `statusT oid` is the transport seen by the
`get_order_status` poll for order `oid`, run on `fuel`; `i` is the
source's loop counter, incremented on every iteration.  On a 200
response the source appends the new order id and then reads
`order_ids[i]` (for the print and the status poll): if `i` is out of
range this raises `IndexError`, otherwise the poll runs on
`order_ids[i]`. -/
def orderLoop (orderPost : String → OrderResponse)
    (statusT : String → Nat → StatusResponse) (fuel : Nat) :
    List ResultDescriptor → Nat → HdaOrders → OrderOutcome
  | [], _, acc => .returns acc
  | r :: rs, i, acc =>
    let acc1 : HdaOrders :=
      { acc with posted := acc.posted ++ [r.url],
                 order_sizes := acc.order_sizes ++ [r.size] }
    let resp := orderPost r.url
    if resp.status_code = 200 then
      let ids := acc1.order_ids ++ [resp.orderId]
      if i < ids.length then
        match get_order_status (statusT (ids.getD i "")) fuel with
        | none => .pollHang
        | some _ =>
          orderLoop orderPost statusT fuel rs (i + 1) { acc1 with order_ids := ids }
      else .indexError
    else
      orderLoop orderPost statusT fuel rs (i + 1) acc1

/-- `get_order_ids`: run the order-creation loop over the result
listing, starting from counter 0 and empty accumulators. -/
def get_order_ids (orderPost : String → OrderResponse)
    (statusT : String → Nat → StatusResponse) (fuel : Nat)
    (results : List ResultDescriptor) : OrderOutcome :=
  orderLoop orderPost statusT fuel results 0 ⟨[], [], []⟩

/-- `get_filenames`: the filenames of the result listing, in order. -/
def get_filenames (results : List ResultDescriptor) : List String :=
  results.map (·.filename)

/-- `download_data`: the sequence of `downloadFile` invocations it
makes — for each position `i` below `order_ids.length`, the download
url built from `order_ids[i]`, the file name `fileName[i]` and the
product size `order_sizes[i]`. -/
def download_data (broker : String) (order_ids fileName : List String)
    (order_sizes : List Nat) : List (String × String × Nat) :=
  (List.range order_ids.length).map fun i =>
    (broker ++ "/dataorder/download/" ++ order_ids.getD i "",
     fileName.getD i "",
     order_sizes.getD i 0)

/-- Whether the order POST for result `r` succeeds. -/
def orderOk (orderPost : String → OrderResponse) (r : ResultDescriptor) : Bool :=
  (orderPost r.url).status_code = 200

/-! ## Chunked downloader (`downloadFile`)

Source:

    def downloadFile(url, headers, directory, file_name, total_length = 0):
        r = requests.get(url, headers=headers, stream=True)
        if r.status_code == 200:
            filename = os.path.join(directory, file_name)
            with open(filename, 'wb') as f:
                start = time.process_time()
                dl = 0
                for chunk in r.iter_content(64738):
                    dl += len(chunk)
                    f.write(chunk)
                    if total_length is not None:
                        done = int(50 * dl / total_length)
                        print("\r[%s%s]  %8.2f Mbps" % ('=' * done,
                              ' ' * (50 - done),
                              (dl // (time.process_time() - start)) / (1024 * 1024)), ...)
                    else:
                        if (dl % (1024) == 0):
                            print("[%8.2f] MB downloaded, %8.2f kbps"
                                  % (dl / (1024 * 1024),
                                     (dl // (time.process_time() - start)) / 1024))
                print("[%8.2f] MB downloaded, %8.2f kbps"
                      % (dl / (1024 * 1024),
                         (dl // (time.process_time() - start)) / 1024))
                return (time.process_time() - start)

The body of the stream is a `List Nat` of bytes; `iter_content(64738)`
splits it into chunks.  Elapsed process CPU times
(`time.process_time() - start`) are rationals supplied from outside:
`elapsedAt i` for the print of the `i`-th chunk (0-based), and
`elapsedFinal` / `elapsedRet` for the print after the loop and the
returned value.  A Python `ZeroDivisionError` becomes an explicit
error value carrying the bytes already written to the file. -/

/-- The fixed chunk size the source passes to `iter_content`. -/
def downloadChunkSize : Nat := 64738

/-- `r.iter_content(64738)`: split the response body into successive
chunks of `downloadChunkSize` bytes (the last one may be shorter). -/
def iterContent (body : List Nat) : List (List Nat) :=
  if h : body = [] then []
  else body.take downloadChunkSize :: iterContent (body.drop downloadChunkSize)
termination_by body.length
decreasing_by
  simp only [List.length_drop]
  have hlen : 0 < body.length := List.length_pos.mpr h
  simp only [downloadChunkSize]
  omega

/-- What one iteration of the chunk loop prints. -/
inductive ProgressOutput where
  /-- The 50-character percentage bar plus a Mbps estimate. -/
  | bar (done : Nat) (mbps : ℚ)
  /-- A byte-count milestone plus a kbps estimate. -/
  | milestone (mb kbps : ℚ)
  /-- Nothing printed (milestone branch, `dl % 1024 ≠ 0`). -/
  | silent
  deriving DecidableEq, Repr

/-- The progress-reporting tail of one chunk iteration, after `dl` has
been incremented and the chunk written: `none` is a Python
`ZeroDivisionError`.  The percentage branch is selected by
`total_length is not None`; it divides by `total_length` (computing
`done`) and then by the elapsed time (the Mbps estimate).  The other
branch divides by the elapsed time only when `dl % 1024 == 0`. -/
def progressStep (total_length : Option Nat) (dl : Nat) (elapsed : ℚ) :
    Option ProgressOutput :=
  match total_length with
  | some t =>
      if t = 0 then none
      else if elapsed = 0 then none
      else some (.bar (50 * dl / t) ((⌊(dl : ℚ) / elapsed⌋ : ℚ) / (1024 * 1024)))
  | none =>
      if dl % 1024 = 0 then
        if elapsed = 0 then none
        else some (.milestone ((dl : ℚ) / (1024 * 1024)) ((⌊(dl : ℚ) / elapsed⌋ : ℚ) / 1024))
      else some .silent

/-- The `for chunk in r.iter_content(64738)` loop.  Arguments: chunks
still to receive, index of the current chunk, file bytes written so
far, the `dl` counter.  `Except.error f` aborts with the partially
written file `f` when a progress print raises. -/
def chunkLoop (total_length : Option Nat) (elapsedAt : Nat → ℚ) :
    List (List Nat) → Nat → List Nat → Nat → Except (List Nat) (List Nat × Nat)
  | [], _, file, dl => .ok (file, dl)
  | chunk :: rest, i, file, dl =>
    let dl' := dl + chunk.length
    let file' := file ++ chunk
    match progressStep total_length dl' (elapsedAt i) with
    | none => .error file'
    | some _ => chunkLoop total_length elapsedAt rest (i + 1) file' dl'

/-- Observable outcome of `downloadFile`: either a normal return
(`file` = bytes written to `directory/filename`, `none` if the file was
never created; `ret` = returned value, `none` being Python `None`), or
an uncaught exception with the partially written file. -/
inductive DLOutcome where
  | ok (file : Option (List Nat)) (ret : Option ℚ)
  | err (file : Option (List Nat))
  deriving DecidableEq, Repr

/-- The returned value of a normal return, if any. -/
def DLOutcome.ret : DLOutcome → Option ℚ
  | .ok _ r => r
  | .err _ => none

/-- The bytes on disk at `directory/filename` after the call
(`none` = the file was never created). -/
def DLOutcome.file : DLOutcome → Option (List Nat)
  | .ok f _ => f
  | .err f => f

/-- `downloadFile`: on a 200 response the file is opened and the
pre-loop print `"File size is: %8.2f MB" % (total_length/(1024*1024))`
runs — when `total_length` is `None` this division raises `TypeError`,
aborting with the just-created empty file on disk.  Otherwise the body
is streamed through `iterContent` and the chunk loop; after the loop a
final print divides by `elapsedFinal` and the elapsed time
`elapsedRet` is returned.  On any other status code the function falls
through: no file is opened and `None` is returned. -/
def downloadFile (status_code : Nat) (body : List Nat) (total_length : Option Nat)
    (elapsedAt : Nat → ℚ) (elapsedFinal elapsedRet : ℚ) : DLOutcome :=
  if status_code = 200 then
    if total_length = none then .err (some [])
    else
      match chunkLoop total_length elapsedAt (iterContent body) 0 [] 0 with
      | .error pfile => .err (some pfile)
      | .ok (file, _) =>
          if elapsedFinal = 0 then .err (some file)
          else .ok (some file) (some elapsedRet)
  else .ok none none

/-! ## Filename extraction (`get_filename_from_cd`)

Source:

    def get_filename_from_cd(cd):
        if not cd:
            return None
        fname = re.findall('filename=(.+)', cd)
        if len(fname) == 0:
            return None
        return fname[0][2:-1]
-/

/-- The literal part of the regular expression. -/
def cdPattern : List Char := "filename=".toList

/-- First match of `re.findall('filename=(.+)', cd)`: scan left to
right for an occurrence of "filename="; the group is the maximal run
of non-newline characters after it and must be nonempty (`.+`); on an
empty group the scan continues at the next position. -/
def findFilename : List Char → Option (List Char)
  | [] => none
  | c :: cs =>
    if cdPattern.isPrefixOf (c :: cs) then
      let grp := ((c :: cs).drop cdPattern.length).takeWhile (fun ch => ch ≠ '\n')
      if grp = [] then findFilename cs else some grp
    else findFilename cs

/-- `get_filename_from_cd`: `cd` is `Option (List Char)` (`none` =
Python `None`); the Python slice `[2:-1]` becomes
`(List.drop 2) ∘ List.dropLast`. -/
def get_filename_from_cd (cd : Option (List Char)) : Option (List Char) :=
  match cd with
  | none => none
  | some s =>
    if s = [] then none
    else
      match findFilename s with
      | none => none
      | some g => some ((g.drop 2).dropLast)

/-- The regex `filename=(.+)` matches at position `i` of `s`:
"filename=" occurs at `i` and at least one non-newline character
follows it. -/
def matchAt (s : List Char) (i : Nat) : Bool :=
  cdPattern.isPrefixOf (s.drop i) &&
    ! ((s.drop (i + cdPattern.length)).takeWhile (fun ch => ch ≠ '\n')).isEmpty

/-! ## Credential encoding (`generate_api_key`)

Source:

    def generate_api_key(username, password):
        s = username + ':' + password
        return (base64.b64encode(str.encode(s), altchars=None)).decode()

Strings are modelled as lists of UTF-8 bytes (`List Nat`, entries
< 256); `':'` is byte 58.  `b64Encode` / `b64Decode` model Python's
standard-alphabet `base64.b64encode` / `base64.b64decode`
(RFC 4648, `altchars=None`, with `=` padding). -/

/-- The standard Base64 alphabet, as a function from a sextet value. -/
def sextetToChar (s : Nat) : Char :=
  if s < 26 then Char.ofNat (65 + s)
  else if s < 52 then Char.ofNat (97 + (s - 26))
  else if s < 62 then Char.ofNat (48 + (s - 52))
  else if s = 62 then '+'
  else '/'

/-- Inverse lookup in the standard Base64 alphabet. -/
def charToSextet (c : Char) : Nat :=
  if 65 ≤ c.toNat ∧ c.toNat ≤ 90 then c.toNat - 65
  else if 97 ≤ c.toNat ∧ c.toNat ≤ 122 then c.toNat - 97 + 26
  else if 48 ≤ c.toNat ∧ c.toNat ≤ 57 then c.toNat - 48 + 52
  else if c = '+' then 62
  else if c = '/' then 63
  else 0

/-- `base64.b64encode` on a byte list: three bytes become four
alphabet characters; a final group of one or two bytes is padded with
`=`. -/
def b64Encode : List Nat → List Char
  | [] => []
  | [b1] => [sextetToChar (b1 / 4), sextetToChar (b1 % 4 * 16), '=', '=']
  | [b1, b2] => [sextetToChar (b1 / 4), sextetToChar (b1 % 4 * 16 + b2 / 16),
                 sextetToChar (b2 % 16 * 4), '=']
  | b1 :: b2 :: b3 :: rest =>
      sextetToChar (b1 / 4) :: sextetToChar (b1 % 4 * 16 + b2 / 16) ::
      sextetToChar (b2 % 16 * 4 + b3 / 64) :: sextetToChar (b3 % 64) ::
      b64Encode rest

/-- `base64.b64decode` on a standard-alphabet, `=`-padded string:
`none` on a malformed input. -/
def b64Decode : List Char → Option (List Nat)
  | [] => some []
  | c1 :: c2 :: c3 :: c4 :: rest =>
    if c3 = '=' then
      if c4 = '=' ∧ rest = [] then
        some [charToSextet c1 * 4 + charToSextet c2 / 16]
      else none
    else if c4 = '=' then
      if rest = [] then
        some [charToSextet c1 * 4 + charToSextet c2 / 16,
              charToSextet c2 % 16 * 16 + charToSextet c3 / 4]
      else none
    else
      match b64Decode rest with
      | some bs =>
        some ((charToSextet c1 * 4 + charToSextet c2 / 16) ::
              (charToSextet c2 % 16 * 16 + charToSextet c3 / 4) ::
              (charToSextet c3 % 4 * 64 + charToSextet c4) :: bs)
      | none => none
  | _ => none

/-- `generate_api_key`: Base64-encode `username ++ ":" ++ password`
(byte 58 is `':'`). -/
def generate_api_key (username password : List Nat) : List Char :=
  b64Encode (username ++ 58 :: password)

/-! ## Helper lemmas -/

lemma pollLoop_failed_none (fuel : Nat) :
    ∀ st n, st ≠ "completed" → pollLoop failedTransport fuel st n = none := by
  induction fuel with
  | zero => intro st n _; rfl
  | succ fuel ih =>
    intro st n hst
    rw [pollLoop, if_neg hst]
    exact ih _ _ (by simp [failedTransport])

lemma orderPollLoop_failed_none (fuel : Nat) :
    ∀ st n last, st ≠ "completed" →
      orderPollLoop failedTransport fuel st n last = none := by
  induction fuel with
  | zero => intro st n last _; rfl
  | succ fuel ih =>
    intro st n last hst
    rw [orderPollLoop, if_neg hst]
    exact ih _ _ _ (by simp [failedTransport])

lemma orderLoop_all_ok (orderPost : String → OrderResponse)
    (statusT : String → Nat → StatusResponse) (fuel : Nat)
    (hpoll : ∀ oid, (get_order_status (statusT oid) fuel).isSome) :
    ∀ (results : List ResultDescriptor) (i : Nat) (acc : HdaOrders),
      (∀ r ∈ results, (orderPost r.url).status_code = 200) →
      i = acc.order_ids.length →
      orderLoop orderPost statusT fuel results i acc =
        .returns ⟨acc.posted ++ results.map (·.url),
                  acc.order_ids ++ results.map (fun r => (orderPost r.url).orderId),
                  acc.order_sizes ++ results.map (·.size)⟩ := by
  intro results
  induction results with
  | nil =>
    intro i acc _ _
    simp [orderLoop]
  | cons r rs ih =>
    intro i acc hok hi
    have h200 : (orderPost r.url).status_code = 200 := hok r (by simp)
    rw [orderLoop]
    dsimp only
    rw [if_pos h200]
    rw [if_pos (by simp [hi])]
    rcases Option.isSome_iff_exists.mp
      (hpoll ((acc.order_ids ++ [(orderPost r.url).orderId]).getD i "")) with ⟨v, hv⟩
    rw [hv]
    rw [ih (i + 1) _ (fun x hx => hok x (by simp [hx])) (by simp [hi])]
    simp [List.append_assoc]

lemma orderLoop_after_failure (orderPost : String → OrderResponse)
    (statusT : String → Nat → StatusResponse) (fuel : Nat) :
    ∀ (results : List ResultDescriptor) (i : Nat) (acc o : HdaOrders),
      acc.order_ids.length < i →
      orderLoop orderPost statusT fuel results i acc = .returns o →
      (∀ r ∈ results, orderOk orderPost r = false) ∧
      o = ⟨acc.posted ++ results.map (·.url), acc.order_ids,
           acc.order_sizes ++ results.map (·.size)⟩ := by
  intro results
  induction results with
  | nil =>
    intro i acc o _ h
    rw [orderLoop] at h
    cases h
    exact ⟨by simp, by simp⟩
  | cons r rs ih =>
    intro i acc o hlt h
    rw [orderLoop] at h
    dsimp only at h
    by_cases h200 : (orderPost r.url).status_code = 200
    · rw [if_pos h200] at h
      rw [if_neg (by
        simp only [List.length_append, List.length_cons, List.length_nil, Nat.not_lt]
        omega)] at h
      simp at h
    · rw [if_neg h200] at h
      have hrec := ih (i + 1) _ o (by dsimp only; omega) h
      refine ⟨?_, ?_⟩
      · intro x hx
        rcases List.mem_cons.mp hx with hx | hx
        · subst hx
          simp [orderOk, h200]
        · exact hrec.1 x hx
      · rw [hrec.2]
        simp [List.append_assoc]

lemma orderLoop_returns_eq (orderPost : String → OrderResponse)
    (statusT : String → Nat → StatusResponse) (fuel : Nat) :
    ∀ (results : List ResultDescriptor) (i : Nat) (acc o : HdaOrders),
      i = acc.order_ids.length →
      orderLoop orderPost statusT fuel results i acc = .returns o →
      ∃ k, k ≤ results.length ∧
        (∀ r ∈ results.take k, orderOk orderPost r = true) ∧
        (∀ r ∈ results.drop k, orderOk orderPost r = false) ∧
        o = ⟨acc.posted ++ results.map (·.url),
             acc.order_ids ++ (results.take k).map (fun r => (orderPost r.url).orderId),
             acc.order_sizes ++ results.map (·.size)⟩ := by
  intro results
  induction results with
  | nil =>
    intro i acc o _ h
    rw [orderLoop] at h
    cases h
    exact ⟨0, by simp, by simp, by simp, by simp⟩
  | cons r rs ih =>
    intro i acc o hi h
    rw [orderLoop] at h
    dsimp only at h
    by_cases h200 : (orderPost r.url).status_code = 200
    · rw [if_pos h200] at h
      rw [if_pos (by simp [hi])] at h
      rcases hpoll : get_order_status
          (statusT ((acc.order_ids ++ [(orderPost r.url).orderId]).getD i "")) fuel
        with _ | v
      · rw [hpoll] at h
        simp at h
      · rw [hpoll] at h
        rcases ih (i + 1) _ o (by simp [hi]) h with ⟨k, hk, htake, hdrop, ho⟩
        refine ⟨k + 1, by simp only [List.length_cons]; omega, ?_, ?_, ?_⟩
        · intro x hx
          rw [List.take_succ_cons] at hx
          rcases List.mem_cons.mp hx with hx | hx
          · subst hx
            simp [orderOk, h200]
          · exact htake x hx
        · intro x hx
          rw [List.drop_succ_cons] at hx
          exact hdrop x hx
        · rw [ho]
          simp [List.take_succ_cons, List.append_assoc]
    · rw [if_neg h200] at h
      have hrec := orderLoop_after_failure orderPost statusT fuel rs (i + 1) _ o
        (by dsimp only; omega) h
      refine ⟨0, by simp, by simp, ?_, ?_⟩
      · intro x hx
        rw [List.drop_zero] at hx
        rcases List.mem_cons.mp hx with hx | hx
        · subst hx
          simp [orderOk, h200]
        · exact hrec.1 x hx
      · rw [hrec.2]
        simp [List.append_assoc]

lemma charToSextet_sextetToChar {s : Nat} (hs : s < 64) :
    charToSextet (sextetToChar s) = s := by
  revert hs
  revert s
  decide

lemma sextetToChar_ne_eq {s : Nat} (hs : s < 64) : sextetToChar s ≠ '=' := by
  revert hs
  revert s
  decide

lemma b64_roundtrip : ∀ bs : List Nat, (∀ b ∈ bs, b < 256) →
    b64Decode (b64Encode bs) = some bs := by
  intro bs
  induction bs using b64Encode.induct with
  | case1 =>
    intro _
    rfl
  | case2 b1 =>
    intro hb
    have h1 : b1 < 256 := hb b1 (by simp)
    rw [b64Encode, b64Decode]
    rw [if_pos rfl, if_pos ⟨rfl, rfl⟩]
    rw [charToSextet_sextetToChar (by omega), charToSextet_sextetToChar (by omega)]
    congr 1
    congr 1
    omega
  | case3 b1 b2 =>
    intro hb
    have h1 : b1 < 256 := hb b1 (by simp)
    have h2 : b2 < 256 := hb b2 (by simp)
    rw [b64Encode, b64Decode]
    rw [if_neg (sextetToChar_ne_eq (by omega)), if_pos rfl, if_pos rfl]
    rw [charToSextet_sextetToChar (by omega), charToSextet_sextetToChar (by omega),
        charToSextet_sextetToChar (by omega)]
    congr 1
    congr 1
    · omega
    · congr 1
      omega
  | case4 b1 b2 b3 rest ih =>
    intro hb
    have h1 : b1 < 256 := hb b1 (by simp)
    have h2 : b2 < 256 := hb b2 (by simp)
    have h3 : b3 < 256 := hb b3 (by simp)
    have hrest : ∀ b ∈ rest, b < 256 := by
      intro b hbr
      exact hb b (by simp [hbr])
    rw [b64Encode, b64Decode]
    rw [if_neg (sextetToChar_ne_eq (by omega)), if_neg (sextetToChar_ne_eq (by omega))]
    rw [ih hrest]
    rw [charToSextet_sextetToChar (by omega), charToSextet_sextetToChar (by omega),
        charToSextet_sextetToChar (by omega), charToSextet_sextetToChar (by omega)]
    have e1 : b1 / 4 * 4 + (b1 % 4 * 16 + b2 / 16) / 16 = b1 := by omega
    have e2 : (b1 % 4 * 16 + b2 / 16) % 16 * 16 + (b2 % 16 * 4 + b3 / 64) / 4 = b2 := by
      omega
    have e3 : (b2 % 16 * 4 + b3 / 64) % 4 * 64 + b3 % 64 = b3 := by omega
    rw [e1, e2, e3]


lemma iterContent_nil : iterContent [] = [] := by
  rw [iterContent]
  simp

lemma iterContent_flatten (body : List Nat) : (iterContent body).flatten = body := by
  induction body using iterContent.induct with
  | case1 =>
    rw [iterContent_nil]
    rfl
  | case2 body hb ih =>
    rw [iterContent, dif_neg hb]
    rw [List.flatten_cons, ih, List.take_append_drop]

lemma iterContent_chunk_le (body : List Nat) :
    ∀ c ∈ iterContent body, c.length ≤ downloadChunkSize := by
  induction body using iterContent.induct with
  | case1 =>
    rw [iterContent_nil]
    intro c hc
    cases hc
  | case2 body hb ih =>
    rw [iterContent, dif_neg hb]
    intro c hc
    rcases List.mem_cons.mp hc with h | h
    · subst h
      exact List.length_take_le downloadChunkSize body
    · exact ih c h

lemma chunkLoop_all_ok (t : Nat) (ht : t ≠ 0) (eAt : Nat → ℚ) (hE : ∀ i, eAt i ≠ 0) :
    ∀ (chunks : List (List Nat)) (i : Nat) (file : List Nat) (dl : Nat),
      chunkLoop (some t) eAt chunks i file dl =
        .ok (file ++ chunks.flatten, dl + (chunks.map List.length).sum) := by
  intro chunks
  induction chunks with
  | nil =>
    intro i file dl
    simp [chunkLoop]
  | cons c cs ih =>
    intro i file dl
    rw [chunkLoop]
    simp only [progressStep, if_neg ht, if_neg (hE i)]
    rw [ih]
    simp [List.append_assoc, Nat.add_assoc]

lemma matchAt_succ (c : Char) (cs : List Char) (i : Nat) :
    matchAt (c :: cs) (i + 1) = matchAt cs i := by
  simp [matchAt, Nat.add_right_comm, List.drop_succ_cons]

lemma matchAt_nil (i : Nat) : matchAt [] i = false := by
  simp only [matchAt, List.drop_nil]
  decide

lemma matchAt_zero (s : List Char) :
    matchAt s 0 = (cdPattern.isPrefixOf s &&
      ! ((s.drop cdPattern.length).takeWhile (fun ch => ch ≠ '\n')).isEmpty) := by
  simp only [matchAt, List.drop_zero, Nat.zero_add]

lemma matchAt_zero_of_empty_group {c : Char} {cs : List Char}
    (hg : ((c :: cs).drop cdPattern.length).takeWhile (fun ch => ch ≠ '\n') = []) :
    matchAt (c :: cs) 0 = false := by
  rw [matchAt_zero, hg]
  simp

lemma matchAt_zero_of_no_prefix {c : Char} {cs : List Char}
    (hp : ¬ cdPattern.isPrefixOf (c :: cs) = true) :
    matchAt (c :: cs) 0 = false := by
  rw [matchAt_zero, show cdPattern.isPrefixOf (c :: cs) = false from by
    rw [← Bool.not_eq_true]
    exact hp]
  rfl

lemma matchAt_zero_of_match {c : Char} {cs : List Char}
    (hp : cdPattern.isPrefixOf (c :: cs) = true)
    (hg : ((c :: cs).drop cdPattern.length).takeWhile (fun ch => ch ≠ '\n') ≠ []) :
    matchAt (c :: cs) 0 = true := by
  rw [matchAt_zero, hp, Bool.true_and]
  simp only [Bool.not_eq_true']
  simpa using hg

lemma findFilename_none_iff (s : List Char) :
    findFilename s = none ↔ ∀ i, matchAt s i = false := by
  induction s with
  | nil =>
    constructor
    · intro _ i
      exact matchAt_nil i
    · intro _
      rfl
  | cons c cs ih =>
    rw [findFilename]
    by_cases hp : cdPattern.isPrefixOf (c :: cs)
    · rw [if_pos hp]
      by_cases hg : ((c :: cs).drop cdPattern.length).takeWhile (fun ch => ch ≠ '\n') = []
      · rw [if_pos hg, ih]
        constructor
        · intro h i
          cases i with
          | zero => exact matchAt_zero_of_empty_group hg
          | succ i =>
            rw [matchAt_succ]
            exact h i
        · intro h i
          have hi := h (i + 1)
          rwa [matchAt_succ] at hi
      · rw [if_neg hg]
        constructor
        · intro h
          cases h
        · intro h
          exfalso
          have h0 := h 0
          rw [matchAt_zero_of_match hp hg] at h0
          cases h0
    · rw [if_neg hp, ih]
      constructor
      · intro h i
        cases i with
        | zero => exact matchAt_zero_of_no_prefix hp
        | succ i =>
          rw [matchAt_succ]
          exact h i
      · intro h i
        have hi := h (i + 1)
        rwa [matchAt_succ] at hi

lemma findFilename_some (s g : List Char) :
    findFilename s = some g →
      ∃ i, matchAt s i = true ∧ (∀ j, j < i → matchAt s j = false) ∧
        g = (s.drop (i + cdPattern.length)).takeWhile (fun ch => ch ≠ '\n') := by
  induction s with
  | nil =>
    intro h
    cases h
  | cons c cs ih =>
    rw [findFilename]
    by_cases hp : cdPattern.isPrefixOf (c :: cs)
    · rw [if_pos hp]
      by_cases hg : ((c :: cs).drop cdPattern.length).takeWhile (fun ch => ch ≠ '\n') = []
      · rw [if_pos hg]
        intro h
        rcases ih h with ⟨i, hmi, hlt, hgeq⟩
        refine ⟨i + 1, ?_, ?_, ?_⟩
        · rwa [matchAt_succ]
        · intro j hj
          cases j with
          | zero => exact matchAt_zero_of_empty_group hg
          | succ j =>
            rw [matchAt_succ]
            exact hlt j (by omega)
        · rw [hgeq, Nat.add_right_comm, List.drop_succ_cons]
      · rw [if_neg hg]
        intro h
        cases h
        refine ⟨0, ?_, ?_, ?_⟩
        · exact matchAt_zero_of_match hp hg
        · intro j hj
          omega
        · simp
    · rw [if_neg hp]
      intro h
      rcases ih h with ⟨i, hmi, hlt, hgeq⟩
      refine ⟨i + 1, ?_, ?_, ?_⟩
      · rwa [matchAt_succ]
      · intro j hj
        cases j with
        | zero => exact matchAt_zero_of_no_prefix hp
        | succ j =>
          rw [matchAt_succ]
          exact hlt j (by omega)
      · rw [hgeq, Nat.add_right_comm, List.drop_succ_cons]

lemma iterContent_singleton (b : Nat) : iterContent [b] = [[b]] := by
  rw [iterContent, dif_neg (by simp)]
  rw [show List.drop downloadChunkSize [b] = [] from
    List.drop_eq_nil_of_le (by simp [downloadChunkSize])]
  rw [iterContent_nil]
  rw [show List.take downloadChunkSize [b] = [b] from
    List.take_of_length_le (by simp [downloadChunkSize])]

lemma download_data_eq_map {α : Type} (broker : String) (l : List α)
    (f g : α → String) (h : α → Nat) :
    download_data broker (l.map f) (l.map g) (l.map h) =
      l.map (fun a => (broker ++ "/dataorder/download/" ++ f a, g a, h a)) := by
  apply List.ext_getElem
  · simp [download_data]
  · intro i h1 h2
    have hi : i < l.length := by simpa [download_data] using h1
    simp only [download_data, List.getElem_map, List.getElem_range]
    rw [List.getD_eq_getElem _ _ (by simpa using hi),
        List.getD_eq_getElem _ _ (by simpa using hi),
        List.getD_eq_getElem _ _ (by simpa using hi)]
    simp [List.getElem_map]

/-! ## The claims -/

/-- C2: the spec requires that, against a transport whose status
endpoint answers every poll with the terminal status "failed", the
polling operations `get_request_status` and `get_order_status`
terminate with an explicit failure outcome.  The code does not: the
`while (status != "completed")` loop never exits, whatever the
iteration bound — on every amount of fuel both polls are still
running (`none`), so neither ever produces an outcome. -/
theorem C2_polling_failed_loops_forever (fuel : Nat) :
    get_request_status failedTransport fuel = none ∧
    get_order_status failedTransport fuel = none := by
  constructor
  · exact pollLoop_failed_none fuel "not started" 0 (by decide)
  · exact orderPollLoop_failed_none fuel "not started" 0 none (by decide)

/-- C7: against a transport answering the first request with HTTP 200
and status "completed", both polling operations terminate after
issuing exactly one status request (on any fuel allowing the loop to
run its two iterations: one that issues the request, one that observes
"completed" and exits). -/
theorem C7_poll_completed_one_request (fuel : Nat) (hf : 2 ≤ fuel) :
    get_request_status completedTransport fuel = some 1 ∧
    get_order_status completedTransport fuel =
      some (1, some ⟨200, "completed"⟩) := by
  obtain ⟨f, rfl⟩ : ∃ f, fuel = f + 2 := ⟨fuel - 2, by omega⟩
  constructor
  · rw [get_request_status, pollLoop, if_neg (by decide)]
    simp only [completedTransport]
    rw [pollLoop]
    rfl
  · rw [get_order_status, orderPollLoop, if_neg (by decide)]
    simp only [completedTransport]
    rw [orderPollLoop]
    rfl

/-- Witness for C7 at fuel 2. -/
theorem C7_witness :
    2 ≤ 2 ∧
    (get_request_status completedTransport 2 = some 1 ∧
     get_order_status completedTransport 2 =
       some (1, some ⟨200, "completed"⟩)) :=
  ⟨by decide, C7_poll_completed_one_request 2 (by decide)⟩

/-- C8: `generate_api_key` is deterministic (it is a pure function of
its two arguments) and reversible: Base64-decoding its output yields
the bytes of `username`, a colon (byte 58), then the bytes of
`password`. -/
theorem C8_api_key_roundtrip (username password : List Nat)
    (hu : ∀ b ∈ username, b < 256) (hp : ∀ b ∈ password, b < 256) :
    b64Decode (generate_api_key username password) =
      some (username ++ 58 :: password) := by
  apply b64_roundtrip
  intro b hb
  rcases List.mem_append.mp hb with h | h
  · exact hu b h
  · rcases List.mem_cons.mp h with h | h
    · omega
    · exact hp b h

/-- Witness for C8: username "we" (bytes 119, 101) and password "pw"
(bytes 112, 119). -/
theorem C8_witness :
    (∀ b ∈ [119, 101], b < 256) ∧ (∀ b ∈ [112, 119], b < 256) ∧
    b64Decode (generate_api_key [119, 101] [112, 119]) =
      some ([119, 101] ++ 58 :: [112, 119]) :=
  ⟨by decide, by decide,
   C8_api_key_roundtrip [119, 101] [112, 119] (by decide) (by decide)⟩

/-- C4: the throughput computation `dl // (time.process_time() - start)`
is unguarded: in an execution where the elapsed process CPU time is
zero when the first chunk is processed (here a 200 response with a
one-byte body, nonzero expected length, elapsed time 0 at chunk 0),
the per-chunk print performs a division by zero and `downloadFile`
aborts with a `ZeroDivisionError` after writing the chunk. -/
theorem C4_throughput_division_by_zero :
    downloadFile 200 [7] (some 1) (fun _ => 0) 1 1 = .err (some [7]) := by
  rw [downloadFile, if_pos rfl, iterContent_singleton, chunkLoop]
  simp [progressStep]

/-- C5 counterexample: the claim that a caller cannot distinguish a
failed call from an empty successful transfer by the returned value is
false.  A non-200 response makes `downloadFile` return Python `None`
(and write no file), while a successful transfer of an empty body
returns the elapsed time — here the number 1 — so the two returned
values differ. -/
theorem C5_counterexample_return_distinguishes :
    downloadFile 404 [] (some 0) (fun _ => 1) 1 1 = .ok none none ∧
    downloadFile 200 [] (some 0) (fun _ => 1) 1 1 = .ok (some []) (some 1) ∧
    (downloadFile 404 [] (some 0) (fun _ => 1) 1 1).ret ≠
      (downloadFile 200 [] (some 0) (fun _ => 1) 1 1).ret := by
  have h404 : downloadFile 404 [] (some 0) (fun _ => 1) 1 1 = .ok none none := by
    rw [downloadFile, if_neg (by omega)]
  have h200 : downloadFile 200 [] (some 0) (fun _ => 1) 1 1
      = .ok (some []) (some 1) := by
    rw [downloadFile, if_pos rfl, iterContent_nil, chunkLoop]
    simp
  refine ⟨h404, h200, ?_⟩
  rw [h404, h200]
  simp [DLOutcome.ret]

/-- C5 as amended: on a non-200 initial response `downloadFile` creates
and writes no file, raises no error, and returns Python `None`.  (The
claim's final clause is corrected: the caller can distinguish this
from an empty successful transfer by the returned value, since a
successful call returns the elapsed time, a number, rather than
`None` — see the counterexample.) -/
theorem C5_failure_no_file_no_error (status : Nat) (body : List Nat)
    (tl : Option Nat) (eAt : Nat → ℚ) (eF eR : ℚ) (h : ¬ status = 200) :
    downloadFile status body tl eAt eF eR = .ok none none := by
  rw [downloadFile, if_neg h]

/-- Witness for C5's amended theorem at a concrete non-200 call. -/
theorem C5_witness :
    (¬ 404 = 200) ∧
    downloadFile 404 [3, 4] (some 9) (fun _ => 1) 1 1 = .ok none none :=
  ⟨by decide, C5_failure_no_file_no_error 404 [3, 4] (some 9) (fun _ => 1) 1 1 (by decide)⟩

/-- C3 counterexample: the claim that a zero expected total length
never reaches the percentage computation is false.  The code guards
the percentage branch only with `total_length is not None`, so a known
total length of zero (the parameter's default) is routed into
`int(50 * dl / total_length)` and raises a `ZeroDivisionError`:
concretely, `progressStep` errs on total length `some 0`, and a 200
download of a one-byte body with expected length `some 0` aborts after
writing its first chunk. -/
theorem C3_counterexample_zero_total_divides :
    progressStep (some 0) 1 1 = none ∧
    downloadFile 200 [9] (some 0) (fun _ => 1) 1 1 = .err (some [9]) := by
  constructor
  · rfl
  · rw [downloadFile, if_pos rfl, iterContent_singleton, chunkLoop]
    simp [progressStep]

/-- C3 as amended: the branch on each chunk is selected by
`total_length is not None` alone.  When the total length is known
(`some t`) and nonzero (and the elapsed time is nonzero), the
percentage-scaled bar and throughput estimate are printed; when it is
known but zero it still reaches the percentage computation, which
divides by zero; only when it is unknown (`none`) are the periodic
byte-count milestones printed instead. -/
theorem C3_progress_branch_selection (dl : Nat) (e : ℚ) (he : e ≠ 0) :
    (∀ t : Nat, t ≠ 0 →
      progressStep (some t) dl e =
        some (.bar (50 * dl / t) ((⌊(dl : ℚ) / e⌋ : ℚ) / (1024 * 1024)))) ∧
    progressStep (some 0) dl e = none ∧
    (dl % 1024 = 0 →
      progressStep none dl e =
        some (.milestone ((dl : ℚ) / (1024 * 1024)) ((⌊(dl : ℚ) / e⌋ : ℚ) / 1024))) ∧
    (dl % 1024 ≠ 0 → progressStep none dl e = some .silent) := by
  refine ⟨?_, ?_, ?_, ?_⟩
  · intro t ht
    simp [progressStep, ht, he]
  · simp [progressStep]
  · intro h
    simp [progressStep, h, he]
  · intro h
    simp [progressStep, h]

/-- Witness for C3's amended theorem at `dl = 2048`, elapsed 1. -/
theorem C3_witness :
    ((1 : ℚ) ≠ 0) ∧
    ((∀ t : Nat, t ≠ 0 →
      progressStep (some t) 2048 1 =
        some (.bar (50 * 2048 / t) ((⌊(2048 : ℚ) / 1⌋ : ℚ) / (1024 * 1024)))) ∧
    progressStep (some 0) 2048 1 = none ∧
    (2048 % 1024 = 0 →
      progressStep none 2048 1 =
        some (.milestone ((2048 : ℚ) / (1024 * 1024)) ((⌊(2048 : ℚ) / 1⌋ : ℚ) / 1024))) ∧
    (2048 % 1024 ≠ 0 → progressStep none 2048 1 = some .silent)) :=
  ⟨by norm_num, C3_progress_branch_selection 2048 1 (by norm_num)⟩

/-- C1: on a successful streamed GET (status 200; expected length
known and nonzero and elapsed times nonzero, so no progress print
raises), the chunks are those of `iter_content` at the fixed request
size 64738; every chunk is at most that size; the bytes written to
the destination file are exactly the concatenation of the received
chunks — hence byte-identical to the source body — and their total
count equals the sum of the chunk lengths, which is the body's
length. -/
theorem C1_download_writes_stream (body : List Nat) (t : Nat)
    (eAt : Nat → ℚ) (eF eR : ℚ)
    (ht : t ≠ 0) (hE : ∀ i, eAt i ≠ 0) (hF : eF ≠ 0) :
    downloadChunkSize = 64738 ∧
    (∀ c ∈ iterContent body, c.length ≤ downloadChunkSize) ∧
    downloadFile 200 body (some t) eAt eF eR =
      .ok (some ((iterContent body).flatten)) (some eR) ∧
    (iterContent body).flatten = body ∧
    ((iterContent body).map List.length).sum = body.length := by
  refine ⟨rfl, iterContent_chunk_le body, ?_, iterContent_flatten body, ?_⟩
  · rw [downloadFile, if_pos rfl, chunkLoop_all_ok t ht eAt hE]
    simp [hF]
  · rw [← List.length_flatten, iterContent_flatten]

/-- Witness for C1: a three-byte body, expected length 3, all elapsed
times 1. -/
theorem C1_witness :
    ((3 : Nat) ≠ 0) ∧ (∀ i : Nat, (fun _ : Nat => (1 : ℚ)) i ≠ 0) ∧ ((1 : ℚ) ≠ 0) ∧
    (downloadChunkSize = 64738 ∧
    (∀ c ∈ iterContent [5, 6, 7], c.length ≤ downloadChunkSize) ∧
    downloadFile 200 [5, 6, 7] (some 3) (fun _ : Nat => (1 : ℚ)) 1 1 =
      .ok (some ((iterContent [5, 6, 7]).flatten)) (some 1) ∧
    (iterContent [5, 6, 7]).flatten = [5, 6, 7] ∧
    ((iterContent [5, 6, 7]).map List.length).sum = [5, 6, 7].length) :=
  ⟨by norm_num, fun _ => by norm_num, by norm_num,
   C1_download_writes_stream [5, 6, 7] 3 (fun _ => 1) 1 1
     (by norm_num) (fun _ => by norm_num) (by norm_num)⟩

/-- C6: over a results listing of N descriptors — when every order
POST succeeds (HTTP 200) and each order-status poll terminates —
`get_order_ids` POSTs exactly one order per descriptor (N POSTs,
`posted` = the N uris in order), collects exactly N order ids in
descriptor order and N sizes, and `download_data` performs exactly N
downloads, the i-th pairing the i-th descriptor's order id, filename
and size.  (With every POST succeeding, the source's `order_ids[i]`
lookup always reads the just-appended id, so no `IndexError` arises.) -/
theorem C6_counts_and_positional_pairing (orderPost : String → OrderResponse)
    (statusT : String → Nat → StatusResponse) (fuel : Nat)
    (results : List ResultDescriptor) (broker : String)
    (hpoll : ∀ oid, (get_order_status (statusT oid) fuel).isSome)
    (hok : ∀ r ∈ results, (orderPost r.url).status_code = 200) :
    get_order_ids orderPost statusT fuel results =
      .returns ⟨results.map (·.url),
                results.map (fun r => (orderPost r.url).orderId),
                results.map (·.size)⟩ ∧
    (results.map (fun r => (orderPost r.url).orderId)).length = results.length ∧
    download_data broker (results.map (fun r => (orderPost r.url).orderId))
        (get_filenames results) (results.map (·.size)) =
      results.map (fun r =>
        (broker ++ "/dataorder/download/" ++ (orderPost r.url).orderId,
         r.filename, r.size)) := by
  refine ⟨?_, by simp, ?_⟩
  · rw [get_order_ids]
    rw [orderLoop_all_ok orderPost statusT fuel hpoll results 0 ⟨[], [], []⟩ hok (by simp)]
    simp
  · rw [get_filenames]
    exact download_data_eq_map broker results _ _ _

/-- Witness for C6: one descriptor, an order POST that always succeeds,
a status transport that completes at once, fuel 2. -/
theorem C6_witness :
    (∀ oid, (get_order_status ((fun _ : String => completedTransport) oid) 2).isSome) ∧
    (∀ r ∈ [ResultDescriptor.mk "f1" 10 "u1"],
      ((fun u => OrderResponse.mk 200 ("oid-" ++ u)) r.url).status_code = 200) ∧
    (get_order_ids (fun u => OrderResponse.mk 200 ("oid-" ++ u))
        (fun _ => completedTransport) 2 [ResultDescriptor.mk "f1" 10 "u1"] =
      .returns ⟨[ResultDescriptor.mk "f1" 10 "u1"].map (·.url),
                [ResultDescriptor.mk "f1" 10 "u1"].map
                  (fun r => ((fun u => OrderResponse.mk 200 ("oid-" ++ u)) r.url).orderId),
                [ResultDescriptor.mk "f1" 10 "u1"].map (·.size)⟩ ∧
    ([ResultDescriptor.mk "f1" 10 "u1"].map
        (fun r => ((fun u => OrderResponse.mk 200 ("oid-" ++ u)) r.url).orderId)).length =
      [ResultDescriptor.mk "f1" 10 "u1"].length ∧
    download_data "B"
        ([ResultDescriptor.mk "f1" 10 "u1"].map
          (fun r => ((fun u => OrderResponse.mk 200 ("oid-" ++ u)) r.url).orderId))
        (get_filenames [ResultDescriptor.mk "f1" 10 "u1"])
        ([ResultDescriptor.mk "f1" 10 "u1"].map (·.size)) =
      [ResultDescriptor.mk "f1" 10 "u1"].map (fun r =>
        ("B" ++ "/dataorder/download/" ++
          ((fun u => OrderResponse.mk 200 ("oid-" ++ u)) r.url).orderId,
         r.filename, r.size))) :=
  ⟨fun _ => by
      show (get_order_status completedTransport 2).isSome = true
      decide,
   by decide,
   C6_counts_and_positional_pairing (fun u => OrderResponse.mk 200 ("oid-" ++ u))
     (fun _ => completedTransport) 2 [ResultDescriptor.mk "f1" 10 "u1"] "B"
     (fun _ => by
       show (get_order_status completedTransport 2).isSome = true
       decide)
     (by decide)⟩

/-- C9 counterexample: the claim's shifted-pairing conclusion is false
of the program.  With a failed first POST followed by a successful
second one — the scenario in which the pairing would shift — the
source instead raises `IndexError` at `order_ids[i]` (the counter `i`
is 1 but `order_ids` has one element), so `get_order_ids` never
returns.  And in the one kind of failure run that does return (the
failed POSTs all after the successful ones), the pairing is truncated,
not shifted: here the single download pairs descriptor 0's own order
id "oid0" with descriptor 0's filename "f0" and size 5. -/
theorem C9_counterexample_crash_or_truncation :
    get_order_ids
        (fun u => if u = "u0" then OrderResponse.mk 500 "" else OrderResponse.mk 200 "oid1")
        (fun _ => completedTransport) 2
        [ResultDescriptor.mk "f0" 5 "u0", ResultDescriptor.mk "f1" 6 "u1"] =
      .indexError ∧
    get_order_ids
        (fun u => if u = "u0" then OrderResponse.mk 200 "oid0" else OrderResponse.mk 500 "")
        (fun _ => completedTransport) 2
        [ResultDescriptor.mk "f0" 5 "u0", ResultDescriptor.mk "f1" 6 "u1"] =
      .returns (HdaOrders.mk ["u0", "u1"] ["oid0"] [5, 6]) ∧
    download_data "B" ["oid0"]
        (get_filenames [ResultDescriptor.mk "f0" 5 "u0", ResultDescriptor.mk "f1" 6 "u1"])
        [5, 6] =
      [("B" ++ "/dataorder/download/" ++ "oid0", "f0", 5)] :=
  ⟨by decide, by decide, by decide⟩

/-- C9 as amended: whenever `get_order_ids` returns, `order_sizes` has
exactly one entry per result descriptor (appended before the status
check) while `order_ids` gains an entry only per 200 response, so with
any failed POST `order_ids` is strictly shorter than `order_sizes`.
But a run can only return when the failed POSTs form a suffix after
all the successful ones — a successful POST after a failure raises
`IndexError` at the source's `order_ids[i]` lookup — so `order_ids`
lists the ids of the leading successful descriptors in order, and the
positional pairing in `download_data` is truncated rather than
shifted: the i-th download pairs the i-th descriptor's OWN order id,
filename and size, and the trailing descriptors are not downloaded at
all. -/
theorem C9_failed_orders_truncate_downloads (orderPost : String → OrderResponse)
    (statusT : String → Nat → StatusResponse) (fuel : Nat)
    (results : List ResultDescriptor) (o : HdaOrders) (broker : String)
    (hret : get_order_ids orderPost statusT fuel results = .returns o) :
    o.order_sizes = results.map (·.size) ∧
    (∃ k, k ≤ results.length ∧
      (∀ r ∈ results.take k, orderOk orderPost r = true) ∧
      (∀ r ∈ results.drop k, orderOk orderPost r = false) ∧
      o.order_ids = (results.take k).map (fun r => (orderPost r.url).orderId)) ∧
    ((∃ r ∈ results, ¬ orderOk orderPost r) →
      o.order_ids.length < o.order_sizes.length) ∧
    (∀ i, i < o.order_ids.length →
      (download_data broker o.order_ids (get_filenames results)
          o.order_sizes).getD i ("", "", 0) =
        (broker ++ "/dataorder/download/" ++
           (orderPost (results.getD i ⟨"", 0, ""⟩).url).orderId,
         (results.getD i ⟨"", 0, ""⟩).filename,
         (results.getD i ⟨"", 0, ""⟩).size)) := by
  rw [get_order_ids] at hret
  rcases orderLoop_returns_eq orderPost statusT fuel results 0 ⟨[], [], []⟩ o
    (by simp) hret with ⟨k, hk, htake, hdrop, ho⟩
  have hsz : o.order_sizes = results.map (·.size) := by
    rw [ho]
    simp
  have hid : o.order_ids = (results.take k).map (fun r => (orderPost r.url).orderId) := by
    rw [ho]
    simp
  have hidlen : o.order_ids.length = k := by
    rw [hid]
    simp [List.length_take]
    omega
  refine ⟨hsz, ⟨k, hk, htake, hdrop, hid⟩, ?_, ?_⟩
  · rintro ⟨r, hr, hnok⟩
    have hkN : k < results.length := by
      rcases Nat.lt_or_ge k results.length with h | h
      · exact h
      · exfalso
        have : r ∈ results.take k := by
          rw [List.take_of_length_le h]
          exact hr
        rw [htake r this] at hnok
        exact hnok rfl
    rw [hsz]
    simp only [List.length_map]
    omega
  · intro i hi
    have hik : i < k := by omega
    have hiN : i < results.length := by omega
    rw [download_data]
    rw [List.getD_eq_getElem _ _ (by simpa using hi)]
    simp only [List.getElem_map, List.getElem_range, Prod.mk.injEq, true_and]
    refine ⟨?_, ?_, ?_⟩
    · rw [hid, List.getD_eq_getElem _ _ (by simp [List.length_take]; omega),
          List.getD_eq_getElem _ _ hiN, List.getElem_map, List.getElem_take]
    · rw [get_filenames, List.getD_eq_getElem _ _ (by simpa using hiN),
          List.getD_eq_getElem _ _ hiN, List.getElem_map]
    · rw [hsz, List.getD_eq_getElem _ _ (by simpa using hiN),
          List.getD_eq_getElem _ _ hiN, List.getElem_map]

/-- Witness for C9's amended theorem: two descriptors, first POST
succeeds, second fails; the run returns with a truncated id list. -/
theorem C9_witness :
    (get_order_ids
        (fun u => if u = "u0" then OrderResponse.mk 200 "oid0" else OrderResponse.mk 500 "")
        (fun _ => completedTransport) 2
        [ResultDescriptor.mk "f0" 5 "u0", ResultDescriptor.mk "f1" 6 "u1"] =
      .returns (HdaOrders.mk ["u0", "u1"] ["oid0"] [5, 6])) ∧
    ((HdaOrders.mk ["u0", "u1"] ["oid0"] [5, 6]).order_sizes =
      [ResultDescriptor.mk "f0" 5 "u0", ResultDescriptor.mk "f1" 6 "u1"].map (·.size) ∧
    (∃ k, k ≤ [ResultDescriptor.mk "f0" 5 "u0", ResultDescriptor.mk "f1" 6 "u1"].length ∧
      (∀ r ∈ [ResultDescriptor.mk "f0" 5 "u0", ResultDescriptor.mk "f1" 6 "u1"].take k,
        orderOk (fun u => if u = "u0" then OrderResponse.mk 200 "oid0" else OrderResponse.mk 500 "") r = true) ∧
      (∀ r ∈ [ResultDescriptor.mk "f0" 5 "u0", ResultDescriptor.mk "f1" 6 "u1"].drop k,
        orderOk (fun u => if u = "u0" then OrderResponse.mk 200 "oid0" else OrderResponse.mk 500 "") r = false) ∧
      (HdaOrders.mk ["u0", "u1"] ["oid0"] [5, 6]).order_ids =
        ([ResultDescriptor.mk "f0" 5 "u0", ResultDescriptor.mk "f1" 6 "u1"].take k).map
          (fun r => ((fun u => if u = "u0" then OrderResponse.mk 200 "oid0" else OrderResponse.mk 500 "") r.url).orderId)) ∧
    ((∃ r ∈ [ResultDescriptor.mk "f0" 5 "u0", ResultDescriptor.mk "f1" 6 "u1"],
        ¬ orderOk (fun u => if u = "u0" then OrderResponse.mk 200 "oid0" else OrderResponse.mk 500 "") r) →
      (HdaOrders.mk ["u0", "u1"] ["oid0"] [5, 6]).order_ids.length <
        (HdaOrders.mk ["u0", "u1"] ["oid0"] [5, 6]).order_sizes.length) ∧
    (∀ i, i < (HdaOrders.mk ["u0", "u1"] ["oid0"] [5, 6]).order_ids.length →
      (download_data "B" (HdaOrders.mk ["u0", "u1"] ["oid0"] [5, 6]).order_ids
          (get_filenames [ResultDescriptor.mk "f0" 5 "u0", ResultDescriptor.mk "f1" 6 "u1"])
          (HdaOrders.mk ["u0", "u1"] ["oid0"] [5, 6]).order_sizes).getD i ("", "", 0) =
        ("B" ++ "/dataorder/download/" ++
          ((fun u => if u = "u0" then OrderResponse.mk 200 "oid0" else OrderResponse.mk 500 "")
            ([ResultDescriptor.mk "f0" 5 "u0", ResultDescriptor.mk "f1" 6 "u1"].getD i ⟨"", 0, ""⟩).url).orderId,
         ([ResultDescriptor.mk "f0" 5 "u0", ResultDescriptor.mk "f1" 6 "u1"].getD i ⟨"", 0, ""⟩).filename,
         ([ResultDescriptor.mk "f0" 5 "u0", ResultDescriptor.mk "f1" 6 "u1"].getD i ⟨"", 0, ""⟩).size))) :=
  ⟨by decide,
   C9_failed_orders_truncate_downloads
     (fun u => if u = "u0" then OrderResponse.mk 200 "oid0" else OrderResponse.mk 500 "")
     (fun _ => completedTransport) 2
     [ResultDescriptor.mk "f0" 5 "u0", ResultDescriptor.mk "f1" 6 "u1"]
     (HdaOrders.mk ["u0", "u1"] ["oid0"] [5, 6]) "B"
     (by decide)⟩

/-- C10: `get_filename_from_cd` returns `None` exactly when the
content-disposition argument is `None`, is empty, or contains no
position where the pattern `filename=(.+)` matches (no occurrence of
"filename=" followed by at least one non-newline character); otherwise
it returns the group of the first (leftmost) match — the maximal
non-newline run after "filename=" — with its first two characters and
its last character removed (the Python slice `[2:-1]`). -/
theorem C10_filename_from_cd :
    get_filename_from_cd none = none ∧
    (∀ s : List Char,
      (get_filename_from_cd (some s) = none ↔
        (s = [] ∨ ∀ i, matchAt s i = false))) ∧
    (∀ (s : List Char) (i : Nat), matchAt s i = true →
      (∀ j, j < i → matchAt s j = false) →
      get_filename_from_cd (some s) =
        some ((((s.drop (i + cdPattern.length)).takeWhile
          (fun ch => ch ≠ '\n')).drop 2).dropLast)) := by
  refine ⟨rfl, ?_, ?_⟩
  · intro s
    by_cases hs : s = []
    · subst hs
      simp [get_filename_from_cd]
    · rw [get_filename_from_cd]
      rw [if_neg hs]
      rcases hf : findFilename s with _ | g
      · rw [findFilename_none_iff] at hf
        simp only [hs, false_or]
        exact ⟨fun _ => hf, fun _ => trivial⟩
      · constructor
        · intro h
          cases h
        · intro h
          rcases h with h | h
          · exact absurd h hs
          · rw [← findFilename_none_iff] at h
            rw [h] at hf
            cases hf
  · intro s i hmi hmin
    have hs : s ≠ [] := by
      intro h
      subst h
      rw [matchAt_nil] at hmi
      cases hmi
    rcases hf : findFilename s with _ | g
    · rw [findFilename_none_iff] at hf
      rw [hf i] at hmi
      cases hmi
    · rcases findFilename_some s g hf with ⟨j, hmj, hminj, hg⟩
      have hij : i = j := by
        rcases Nat.lt_trichotomy i j with h | h | h
        · rw [hminj i h] at hmi
          cases hmi
        · exact h
        · rw [hmin j h] at hmj
          cases hmj
      subst hij
      rw [get_filename_from_cd]
      rw [if_neg hs, hf, hg]

end Hda
